import Mathlib

/-!
Verification of the deduplication engine of DeezerDeduplicator.

The definitions below are a shallow embedding of `deduplicate_playlist` and
`deduplicate_playlists` from `src/library/util.py` (textually identical copies
live in `src/main.py`).  Python dictionaries/sets are embedded as association
lists / lists with decidable membership, machine-level details (HTTP, logging)
are out of the model; the two awaited API calls are recorded in an explicit
call trace so that frame conditions can be stated.
-/

namespace DeezerDedup

/-- A track record as consumed by the deduplication loop.  The fields mirror
the keys the Python code reads from a song dict: `SNG_ID`, `SNG_TITLE`,
`VERSION` (optional, `song.get("VERSION", "")`), `ISRC` (optional,
`song.get("ISRC")`), `ART_ID` (optional, `song.get("ART_ID")`). -/
structure Track where
  SNG_ID : Nat
  SNG_TITLE : String
  VER : Option String
  ISRC : Option String
  ART_ID : Option Nat
deriving Repr, DecidableEq

/-- Python truthiness of `song.get("ISRC")`: the field is present and the
string is non-empty. -/
def isrcTruthy (t : Track) : Bool :=
  match t.ISRC with
  | none => false
  | some s => s != ""

/-- Python truthiness of `song.get("ART_ID")`: the field is present and the
integer is non-zero. -/
def artTruthy (t : Track) : Bool :=
  match t.ART_ID with
  | none => false
  | some a => a != 0

/-- Line 86: `song_title = song["SNG_TITLE"] + song.get("VERSION", "")`. -/
def songTitle (t : Track) : String :=
  t.SNG_TITLE ++ t.VER.getD ""

/-- The ISRC equivalence key of a track (EquivalenceKeyBuilder, ISRC axis):
defined exactly when the guard of line 89, `deduplicate_by_isrc and
song.get("ISRC")`, holds; the key is the raw ISRC value (line 90). -/
def isrcKey (byIsrc : Bool) (t : Track) : Option String :=
  if byIsrc && isrcTruthy t then t.ISRC else none

/-- The name equivalence key of a track (EquivalenceKeyBuilder, name axis):
defined exactly when the guard of line 97, `deduplicate_by_name and
song.get("ART_ID")`, holds (the `not is_song_duplicate` part of that guard
belongs to the loop, not to the key); the key is
`(song_title, song["ART_ID"])` (line 98). -/
def nameKey (byName : Bool) (t : Track) : Option (String × Nat) :=
  if byName && artTruthy t then
    match t.ART_ID with
    | some a => some (songTitle t, a)
    | none => none
  else none

/-- Which axis classified a track as a duplicate; corresponds to the two
debug log lines 93 and 101 of the loop body. -/
inductive Axis where
  | isrc
  | name
deriving Repr, DecidableEq

/-- The mutable state of the classification loop:
`isrcs` is the Python set of seen ISRCs (line 83), `names` the Python dict
from name key to the first track holding it (line 84), and `duplicates` the
collected duplicates (line 77).  Tracks are tagged with their position in the
fetched list so that statements can speak about individual occurrences; the
code's `duplicates` list is recovered by projecting `Prod.snd`. -/
structure DedupState where
  isrcs : List String
  names : List ((String × Nat) × Track)
  duplicates : List (Nat × Track)
deriving Repr, DecidableEq

def initState : DedupState := ⟨[], [], []⟩

/-- The ISRC section of the loop body (lines 89-95): under the guard
`deduplicate_by_isrc and song.get("ISRC")`, a seen ISRC classifies the track
as a duplicate, an unseen ISRC is added to the seen set. -/
def isrcStep (b1 : Bool) (st : DedupState) (e : Nat × Track) : Option Axis × DedupState :=
  if b1 && isrcTruthy e.2 then
    match e.2.ISRC with
    | some s =>
      if s ∈ st.isrcs then
        (some Axis.isrc, { st with duplicates := st.duplicates ++ [e] })
      else
        (none, { st with isrcs := s :: st.isrcs })
    | none => (none, st)
  else (none, st)

/-- The name section of the loop body (lines 97-103): under the guard
`deduplicate_by_name and song.get("ART_ID")`, a seen `(song_title, ART_ID)`
key classifies the track as a duplicate, an unseen key is entered into the
name mapping with the track as its first holder. -/
def nameStep (b2 : Bool) (st : DedupState) (e : Nat × Track) : Option Axis × DedupState :=
  if b2 && artTruthy e.2 then
    match e.2.ART_ID with
    | some a =>
      if (songTitle e.2, a) ∈ st.names.map Prod.fst then
        (some Axis.name, { st with duplicates := st.duplicates ++ [e] })
      else
        (none, { st with names := st.names ++ [((songTitle e.2, a), e.2)] })
    | none => (none, st)
  else (none, st)

/-- One iteration of the loop body (lines 85-103) on the indexed track `e`.
Returns which axis, if any, classified `e` as a duplicate, and the updated
state.  The ISRC axis is checked first; the name axis is only evaluated when
`is_song_duplicate` is still false (the `not is_song_duplicate` conjunct of
line 97). -/
def step (b1 b2 : Bool) (st : DedupState) (e : Nat × Track) : Option Axis × DedupState :=
  match isrcStep b1 st e with
  | (some a, st1) => (some a, st1)
  | (none, st1) => nameStep b2 st1 e

/-- The classification loop `for song in songs` (lines 85-103). -/
def runScan (b1 b2 : Bool) : DedupState → List (Nat × Track) → DedupState
  | st, [] => st
  | st, e :: es => runScan b1 b2 (step b1 b2 st e).2 es

/-- Line 71: `deduplicate_by_isrc = deduplicate_by in (1, 3)`. -/
def policyIsrc (deduplicate_by : Int) : Bool :=
  deduplicate_by == 1 || deduplicate_by == 3

/-- Line 72: `deduplicate_by_name = deduplicate_by in (2, 3)`. -/
def policyName (deduplicate_by : Int) : Bool :=
  deduplicate_by == 2 || deduplicate_by == 3

/-- The duplicates identified in a fetched track list, tagged with their
positions in fetch order. -/
def findDuplicatesI (deduplicate_by : Int) (songs : List Track) : List (Nat × Track) :=
  (runScan (policyIsrc deduplicate_by) (policyName deduplicate_by) initState songs.enum).duplicates

/-- The code's `duplicates` list: the identified duplicate tracks in
encounter order. -/
def dupTracks (deduplicate_by : Int) (songs : List Track) : List Track :=
  (findDuplicatesI deduplicate_by songs).map Prod.snd

/-- The external API collaborator, restricted to the two operations the
engine consumes: `get_songs_in_playlist` (list of songs or `None`) and
`remove_songs_from_playlist` (success boolean). -/
structure Api where
  get_songs_in_playlist : Nat → Option (List Track)
  remove_songs_from_playlist : Nat → List Nat → Bool

/-- One awaited call to the external collaborator. -/
inductive ApiCall where
  | fetch (playlistId : Nat)
  | remove (playlistId : Nat) (songIds : List Nat)
deriving Repr, DecidableEq

/-- The `playlist` argument: `playlist[NAME]` and `playlist[ID]`
(`NAME = 0`, `ID = 1`, lines 74-75). -/
structure Playlist where
  name : String
  id : Nat
deriving Repr, DecidableEq

/-- The value returned by `deduplicate_playlist`: either
`(duplicates, name, id)` or `(None, name, id)`. -/
abbrev PlaylistResult := Option (List Track) × String × Nat

/-- Python falsiness of the fetched `songs` value (line 79 `if not songs`):
`None` or the empty list. -/
def fetchFalsy : Option (List Track) → Bool
  | none => true
  | some l => l.isEmpty

/-- Embedding of `deduplicate_playlist` (util.py lines 60-119), paired with
the trace of awaited API calls.  Branches in source order: failed/empty fetch
(lines 79-81), the classification loop (85-103), no duplicates (117-119),
`only_show` (107-108), removal success (110-113) and removal failure
(115-116). -/
def deduplicate_playlist (playlist : Playlist) (deduplicate_by : Int)
    (_api : Api) (only_show : Bool) : PlaylistResult × List ApiCall :=
  let songsResp := _api.get_songs_in_playlist playlist.id
  if fetchFalsy songsResp then
    ((none, playlist.name, playlist.id), [ApiCall.fetch playlist.id])
  else
    let songs := songsResp.getD []
    let duplicates := dupTracks deduplicate_by songs
    if duplicates.isEmpty then
      ((none, playlist.name, playlist.id), [ApiCall.fetch playlist.id])
    else if only_show then
      ((some duplicates, playlist.name, playlist.id), [ApiCall.fetch playlist.id])
    else
      let ids := duplicates.map Track.SNG_ID
      if _api.remove_songs_from_playlist playlist.id ids then
        ((some duplicates, playlist.name, playlist.id),
          [ApiCall.fetch playlist.id, ApiCall.remove playlist.id ids])
      else
        ((none, playlist.name, playlist.id),
          [ApiCall.fetch playlist.id, ApiCall.remove playlist.id ids])

/-- Python truthiness of one result in the aggregation loop (line 147
`if result:`): a result is always a non-empty 3-tuple, hence always truthy. -/
def resultTruthy (_ : PlaylistResult) : Bool := true

/-- Embedding of `deduplicate_playlists` (util.py lines 121-150): zero
playlists return `None` (lines 134-136), one playlist is run directly
(lines 138-139), otherwise one task per playlist is spawned and the results
are collected in task order, filtered by truthiness (lines 141-150). -/
def deduplicate_playlists (playlists : List Playlist) (deduplicate_by : Int)
    (_api : Api) (only_show : Bool) : Option (List PlaylistResult) :=
  match playlists with
  | [] => none
  | [playlist] => some [(deduplicate_playlist playlist deduplicate_by _api only_show).1]
  | _ =>
    some (((playlists.map
      (fun playlist => (deduplicate_playlist playlist deduplicate_by _api only_show).1)).filter
        resultTruthy))

/-! ### Basic facts about the loop body -/

lemma isrcTruthy_some {t : Track} (h : isrcTruthy t = true) :
    ∃ s, t.ISRC = some s ∧ s ≠ "" := by
  unfold isrcTruthy at h
  cases hI : t.ISRC with
  | none => rw [hI] at h; exact absurd h (by simp)
  | some s =>
    rw [hI] at h
    exact ⟨s, rfl, by simpa using h⟩

lemma artTruthy_some {t : Track} (h : artTruthy t = true) :
    ∃ a, t.ART_ID = some a ∧ a ≠ 0 := by
  unfold artTruthy at h
  cases hA : t.ART_ID with
  | none => rw [hA] at h; exact absurd h (by simp)
  | some a =>
    rw [hA] at h
    exact ⟨a, rfl, by simpa using h⟩

lemma isrcStep_off {b1 : Bool} {st : DedupState} {e : Nat × Track}
    (h : (b1 && isrcTruthy e.2) = false) : isrcStep b1 st e = (none, st) := by
  simp [isrcStep, h]

lemma isrcStep_dup {b1 : Bool} {st : DedupState} {e : Nat × Track} {s : String}
    (hc : (b1 && isrcTruthy e.2) = true) (hs : e.2.ISRC = some s)
    (hm : s ∈ st.isrcs) :
    isrcStep b1 st e = (some Axis.isrc, { st with duplicates := st.duplicates ++ [e] }) := by
  simp [isrcStep, hc, hs, hm]

lemma isrcStep_new {b1 : Bool} {st : DedupState} {e : Nat × Track} {s : String}
    (hc : (b1 && isrcTruthy e.2) = true) (hs : e.2.ISRC = some s)
    (hm : s ∉ st.isrcs) :
    isrcStep b1 st e = (none, { st with isrcs := s :: st.isrcs }) := by
  simp [isrcStep, hc, hs, hm]

lemma nameStep_off {b2 : Bool} {st : DedupState} {e : Nat × Track}
    (h : (b2 && artTruthy e.2) = false) : nameStep b2 st e = (none, st) := by
  simp [nameStep, h]

lemma nameStep_dup {b2 : Bool} {st : DedupState} {e : Nat × Track} {a : Nat}
    (hc : (b2 && artTruthy e.2) = true) (ha : e.2.ART_ID = some a)
    (hm : (songTitle e.2, a) ∈ st.names.map Prod.fst) :
    nameStep b2 st e = (some Axis.name, { st with duplicates := st.duplicates ++ [e] }) := by
  simp [nameStep, hc, ha, hm]

lemma nameStep_new {b2 : Bool} {st : DedupState} {e : Nat × Track} {a : Nat}
    (hc : (b2 && artTruthy e.2) = true) (ha : e.2.ART_ID = some a)
    (hm : (songTitle e.2, a) ∉ st.names.map Prod.fst) :
    nameStep b2 st e = (none, { st with names := st.names ++ [((songTitle e.2, a), e.2)] }) := by
  simp [nameStep, hc, ha, hm]

lemma step_name_off (b1 : Bool) (st : DedupState) (e : Nat × Track) :
    step b1 false st e = isrcStep b1 st e := by
  unfold step
  rcases h : isrcStep b1 st e with ⟨ax, st1⟩
  cases ax with
  | none => simpa using nameStep_off (by simp)
  | some a => rfl

lemma step_isrc_off (b2 : Bool) (st : DedupState) (e : Nat × Track) :
    step false b2 st e = nameStep b2 st e := by
  unfold step
  rw [isrcStep_off (by simp)]

lemma isrcStep_names (b1 : Bool) (st : DedupState) (e : Nat × Track) :
    (isrcStep b1 st e).2.names = st.names := by
  cases hc : b1 && isrcTruthy e.2 with
  | false => rw [isrcStep_off hc]
  | true =>
    obtain ⟨s, hs, -⟩ := isrcTruthy_some (Bool.and_eq_true _ _ |>.mp hc).2
    by_cases hm : s ∈ st.isrcs
    · rw [isrcStep_dup hc hs hm]
    · rw [isrcStep_new hc hs hm]

lemma isrcStep_none {b1 : Bool} {st : DedupState} {e : Nat × Track}
    (h : (isrcStep b1 st e).1 = none) :
    (isrcStep b1 st e).2.duplicates = st.duplicates := by
  cases hc : b1 && isrcTruthy e.2 with
  | false => rw [isrcStep_off hc]
  | true =>
    obtain ⟨s, hs, -⟩ := isrcTruthy_some (Bool.and_eq_true _ _ |>.mp hc).2
    by_cases hm : s ∈ st.isrcs
    · rw [isrcStep_dup hc hs hm] at h; exact absurd h (by simp)
    · rw [isrcStep_new hc hs hm]

lemma isrcStep_some {b1 : Bool} {st : DedupState} {e : Nat × Track} {a : Axis}
    (h : (isrcStep b1 st e).1 = some a) :
    a = Axis.isrc ∧
      (isrcStep b1 st e).2 = { st with duplicates := st.duplicates ++ [e] } := by
  cases hc : b1 && isrcTruthy e.2 with
  | false => rw [isrcStep_off hc] at h ⊢; exact absurd h (by simp)
  | true =>
    obtain ⟨s, hs, -⟩ := isrcTruthy_some (Bool.and_eq_true _ _ |>.mp hc).2
    by_cases hm : s ∈ st.isrcs
    · rw [isrcStep_dup hc hs hm] at h ⊢
      refine ⟨?_, rfl⟩
      simpa using h.symm
    · rw [isrcStep_new hc hs hm] at h; exact absurd h (by simp)

lemma nameStep_isrcs (b2 : Bool) (st : DedupState) (e : Nat × Track) :
    (nameStep b2 st e).2.isrcs = st.isrcs := by
  cases hc : b2 && artTruthy e.2 with
  | false => rw [nameStep_off hc]
  | true =>
    obtain ⟨a, ha, -⟩ := artTruthy_some (Bool.and_eq_true _ _ |>.mp hc).2
    by_cases hm : (songTitle e.2, a) ∈ st.names.map Prod.fst
    · rw [nameStep_dup hc ha hm]
    · rw [nameStep_new hc ha hm]

lemma nameStep_dup_cases (b2 : Bool) (st : DedupState) (e : Nat × Track) :
    (nameStep b2 st e).2.duplicates = st.duplicates ∨
      (nameStep b2 st e).2.duplicates = st.duplicates ++ [e] := by
  cases hc : b2 && artTruthy e.2 with
  | false => rw [nameStep_off hc]; exact Or.inl rfl
  | true =>
    obtain ⟨a, ha, -⟩ := artTruthy_some (Bool.and_eq_true _ _ |>.mp hc).2
    by_cases hm : (songTitle e.2, a) ∈ st.names.map Prod.fst
    · rw [nameStep_dup hc ha hm]; exact Or.inr rfl
    · rw [nameStep_new hc ha hm]; exact Or.inl rfl

lemma step_dup_cases (b1 b2 : Bool) (st : DedupState) (e : Nat × Track) :
    (step b1 b2 st e).2.duplicates = st.duplicates ∨
      (step b1 b2 st e).2.duplicates = st.duplicates ++ [e] := by
  unfold step
  rcases h : isrcStep b1 st e with ⟨ax, st1⟩
  cases ax with
  | some a =>
    have h2 : st1 = { st with duplicates := st.duplicates ++ [e] } := by
      have h3 := (isrcStep_some (show (isrcStep b1 st e).1 = some a by rw [h])).2
      rw [h] at h3
      simpa using h3
    rw [h2]
    exact Or.inr rfl
  | none =>
    have hdup : st1.duplicates = st.duplicates := by
      have h3 := isrcStep_none (show (isrcStep b1 st e).1 = none by rw [h])
      rw [h] at h3
      simpa using h3
    show (nameStep b2 st1 e).2.duplicates = _ ∨ (nameStep b2 st1 e).2.duplicates = _
    rcases nameStep_dup_cases b2 st1 e with h2 | h2 <;> rw [h2, hdup]
    · exact Or.inl rfl
    · exact Or.inr rfl

lemma runScan_duplicates_sublist (b1 b2 : Bool) :
    ∀ (es : List (Nat × Track)) (st : DedupState),
      ∃ d, (runScan b1 b2 st es).duplicates = st.duplicates ++ d ∧ d.Sublist es := by
  intro es
  induction es with
  | nil => intro st; exact ⟨[], by simp [runScan], List.nil_sublist _⟩
  | cons e es ih =>
    intro st
    obtain ⟨d, hd, hsub⟩ := ih (step b1 b2 st e).2
    rcases step_dup_cases b1 b2 st e with h | h
    · refine ⟨d, ?_, hsub.cons e⟩
      simpa [runScan, h] using hd
    · refine ⟨e :: d, ?_, hsub.cons₂ e⟩
      simp only [runScan]
      rw [hd, h, List.append_assoc, List.singleton_append]

/-! ### First-occurrence characterization of a single axis

`keptDup` replays the seen-set discipline of one axis in isolation: elements
whose key is already seen are collected, fresh keys are registered.  The
lemmas below identify the duplicates of a single-axis run of the loop with
`keptDup` and characterize membership as "an earlier element holds an equal
key". -/

def keptDup {α κ : Type} [DecidableEq κ] (key : α → Option κ) : List κ → List α → List α
  | _, [] => []
  | seen, a :: rest =>
    match key a with
    | none => keptDup key seen rest
    | some k =>
      if k ∈ seen then a :: keptDup key seen rest
      else keptDup key (k :: seen) rest

lemma keptDup_sublist {α κ : Type} [DecidableEq κ] (key : α → Option κ) :
    ∀ (seen : List κ) (l : List α), (keptDup key seen l).Sublist l := by
  intro seen l
  induction l generalizing seen with
  | nil => simp [keptDup]
  | cons a rest ih =>
    cases hk : key a with
    | none => simpa [keptDup, hk] using (ih seen).cons a
    | some k =>
      by_cases hm : k ∈ seen
      · simpa [keptDup, hk, hm] using (ih seen).cons₂ a
      · simpa [keptDup, hk, hm] using (ih (k :: seen)).cons a

lemma keptDup_congr {α κ : Type} [DecidableEq κ] (key : α → Option κ) :
    ∀ (l : List α) (s₁ s₂ : List κ), (∀ k, k ∈ s₁ ↔ k ∈ s₂) →
      keptDup key s₁ l = keptDup key s₂ l := by
  intro l
  induction l with
  | nil => intros; simp [keptDup]
  | cons a rest ih =>
    intro s₁ s₂ h
    cases hk : key a with
    | none => simp only [keptDup, hk]; exact ih s₁ s₂ h
    | some k =>
      by_cases hm : k ∈ s₁
      · have hm2 : k ∈ s₂ := (h k).mp hm
        simp only [keptDup, hk, if_pos hm, if_pos hm2]
        rw [ih s₁ s₂ h]
      · have hm2 : k ∉ s₂ := fun hh => hm ((h k).mpr hh)
        simp only [keptDup, hk, if_neg hm, if_neg hm2]
        exact ih _ _ (by intro k'; simp [List.mem_cons, h k'])

lemma keptDup_mem_iff {α κ : Type} [DecidableEq κ] (key : Nat × α → Option κ) :
    ∀ (es : List (Nat × α)) (seen : List κ),
      es.Pairwise (fun x y => x.1 < y.1) →
      ∀ e ∈ es,
        (e ∈ keptDup key seen es ↔
          ∃ k, key e = some k ∧
            (k ∈ seen ∨ ∃ e' ∈ es, e'.1 < e.1 ∧ key e' = some k)) := by
  intro es
  induction es with
  | nil => intro seen _ e he; exact absurd he (List.not_mem_nil e)
  | cons a rest ih =>
    intro seen hpw e he
    obtain ⟨ha, hrest⟩ := List.pairwise_cons.mp hpw
    rcases List.mem_cons.mp he with he | he
    · subst he
      have hnr : e ∉ rest := fun hmem => lt_irrefl e.1 (ha e hmem)
      cases hk : key e with
      | none =>
        simp only [keptDup, hk]
        constructor
        · intro hc
          exact absurd ((keptDup_sublist key seen rest).subset hc) hnr
        · rintro ⟨k, hk2, -⟩
          exact absurd hk2 (by simp)
      | some k0 =>
        by_cases hm : k0 ∈ seen
        · simp only [keptDup, hk, if_pos hm]
          constructor
          · intro _
            exact ⟨k0, rfl, Or.inl hm⟩
          · intro _
            exact List.mem_cons_self e _
        · simp only [keptDup, hk, if_neg hm]
          constructor
          · intro hc
            exact absurd ((keptDup_sublist key (k0 :: seen) rest).subset hc) hnr
          · rintro ⟨k, hk2, hor⟩
            obtain rfl : k0 = k := by simpa [hk] using hk2
            rcases hor with hse | ⟨e', he', hlt, hke'⟩
            · exact absurd hse hm
            · rcases List.mem_cons.mp he' with rfl | he'
              · exact absurd hlt (lt_irrefl _)
              · exact absurd hlt (not_lt_of_gt (ha e' he'))
    · have hlt : a.1 < e.1 := ha e he
      have hne : e ≠ a := fun hh => by rw [hh] at hlt; exact lt_irrefl _ hlt
      cases hk : key a with
      | none =>
        simp only [keptDup, hk]
        rw [ih seen hrest e he]
        constructor
        · rintro ⟨k, hke, hor⟩
          refine ⟨k, hke, ?_⟩
          rcases hor with hse | ⟨e', he', h1, h2⟩
          · exact Or.inl hse
          · exact Or.inr ⟨e', List.mem_cons_of_mem a he', h1, h2⟩
        · rintro ⟨k, hke, hor⟩
          refine ⟨k, hke, ?_⟩
          rcases hor with hse | ⟨e', he', h1, h2⟩
          · exact Or.inl hse
          · rcases List.mem_cons.mp he' with rfl | he'
            · exact absurd h2 (by rw [hk]; simp)
            · exact Or.inr ⟨e', he', h1, h2⟩
      | some k0 =>
        by_cases hm : k0 ∈ seen
        · simp only [keptDup, hk, if_pos hm, List.mem_cons]
          rw [ih seen hrest e he]
          constructor
          · rintro (hh | ⟨k, hke, hor⟩)
            · exact absurd hh hne
            · refine ⟨k, hke, ?_⟩
              rcases hor with hse | ⟨e', he', h1, h2⟩
              · exact Or.inl hse
              · exact Or.inr ⟨e', Or.inr he', h1, h2⟩
          · rintro ⟨k, hke, hor⟩
            refine Or.inr ⟨k, hke, ?_⟩
            rcases hor with hse | ⟨e', he', h1, h2⟩
            · exact Or.inl hse
            · rcases he' with rfl | he'
              · obtain rfl : k0 = k := by simpa [hk] using h2
                exact Or.inl hm
              · exact Or.inr ⟨e', he', h1, h2⟩
        · simp only [keptDup, hk, if_neg hm]
          rw [ih (k0 :: seen) hrest e he]
          constructor
          · rintro ⟨k, hke, hor⟩
            refine ⟨k, hke, ?_⟩
            rcases hor with hse | ⟨e', he', h1, h2⟩
            · rcases List.mem_cons.mp hse with rfl | hse
              · exact Or.inr ⟨a, List.mem_cons_self a rest, hlt, hk⟩
              · exact Or.inl hse
            · exact Or.inr ⟨e', List.mem_cons_of_mem a he', h1, h2⟩
          · rintro ⟨k, hke, hor⟩
            refine ⟨k, hke, ?_⟩
            rcases hor with hse | ⟨e', he', h1, h2⟩
            · exact Or.inl (List.mem_cons_of_mem k0 hse)
            · rcases List.mem_cons.mp he' with rfl | he'
              · obtain rfl : k0 = k := by simpa [hk] using h2
                exact Or.inl (List.mem_cons_self k0 seen)
              · exact Or.inr ⟨e', he', h1, h2⟩

lemma runScan_isrc_keptDup (b1 : Bool) :
    ∀ (es : List (Nat × Track)) (st : DedupState),
      (runScan b1 false st es).duplicates =
        st.duplicates ++ keptDup (fun e => isrcKey b1 e.2) st.isrcs es := by
  intro es
  induction es with
  | nil => intro st; simp [runScan, keptDup]
  | cons e es ih =>
    intro st
    simp only [runScan, step_name_off]
    cases hc : b1 && isrcTruthy e.2 with
    | false =>
      have hkey : isrcKey b1 e.2 = none := by simp [isrcKey, hc]
      rw [isrcStep_off hc]
      simp only [keptDup, hkey]
      exact ih st
    | true =>
      obtain ⟨s, hs, -⟩ := isrcTruthy_some (Bool.and_eq_true _ _ |>.mp hc).2
      have hkey : isrcKey b1 e.2 = some s := by simp [isrcKey, hc, hs]
      by_cases hm : s ∈ st.isrcs
      · rw [isrcStep_dup hc hs hm, ih]
        simp [keptDup, hkey, hm]
      · rw [isrcStep_new hc hs hm, ih]
        simp [keptDup, hkey, hm]

lemma runScan_name_keptDup (b2 : Bool) :
    ∀ (es : List (Nat × Track)) (st : DedupState),
      (runScan false b2 st es).duplicates =
        st.duplicates ++ keptDup (fun e => nameKey b2 e.2) (st.names.map Prod.fst) es := by
  intro es
  induction es with
  | nil => intro st; simp [runScan, keptDup]
  | cons e es ih =>
    intro st
    simp only [runScan, step_isrc_off]
    cases hc : b2 && artTruthy e.2 with
    | false =>
      have hkey : nameKey b2 e.2 = none := by simp [nameKey, hc]
      rw [nameStep_off hc]
      simp only [keptDup, hkey]
      exact ih st
    | true =>
      obtain ⟨a, ha, -⟩ := artTruthy_some (Bool.and_eq_true _ _ |>.mp hc).2
      have hkey : nameKey b2 e.2 = some (songTitle e.2, a) := by simp [nameKey, hc, ha]
      by_cases hm : (songTitle e.2, a) ∈ st.names.map Prod.fst
      · rw [nameStep_dup hc ha hm, ih]
        simp [keptDup, hkey, hm]
      · rw [nameStep_new hc ha hm, ih]
        have hcg := keptDup_congr (fun e => nameKey b2 e.2) es
          ((songTitle e.2, a) :: st.names.map Prod.fst)
          ((st.names ++ [((songTitle e.2, a), e.2)]).map Prod.fst)
          (by intro k; simp [List.mem_append, or_comm])
        rw [← hcg]
        simp [keptDup, hkey, hm]

lemma enumFrom_pairwise {α : Type} (l : List α) :
    ∀ n, (List.enumFrom n l).Pairwise (fun x y => x.1 < y.1) := by
  induction l with
  | nil => intro n; simp
  | cons a l ih =>
    intro n
    rw [List.enumFrom_cons]
    refine List.Pairwise.cons ?_ (ih (n + 1))
    rintro ⟨i, x⟩ hy
    have h1 : n + 1 ≤ i := (List.mk_mem_enumFrom_iff_le_and_getElem?_sub.mp hy).1
    exact Nat.lt_of_lt_of_le (Nat.lt_succ_self n) h1

lemma enum_pairwise {α : Type} (l : List α) :
    l.enum.Pairwise (fun x y => x.1 < y.1) := by
  rw [List.enum_eq_enumFrom]
  exact enumFrom_pairwise l 0

lemma runScan_inactive : ∀ (es : List (Nat × Track)) (st : DedupState),
    runScan false false st es = st := by
  intro es
  induction es with
  | nil => intro st; simp [runScan]
  | cons e es ih =>
    intro st
    simp only [runScan]
    rw [step_name_off, isrcStep_off (show (false && isrcTruthy e.2) = false by simp)]
    exact ih st

lemma nameStep_some {b2 : Bool} {st : DedupState} {e : Nat × Track} {a : Axis}
    (h : (nameStep b2 st e).1 = some a) :
    a = Axis.name ∧
      (nameStep b2 st e).2 = { st with duplicates := st.duplicates ++ [e] } := by
  cases hc : b2 && artTruthy e.2 with
  | false => rw [nameStep_off hc] at h ⊢; exact absurd h (by simp)
  | true =>
    obtain ⟨x, hx, -⟩ := artTruthy_some (Bool.and_eq_true _ _ |>.mp hc).2
    by_cases hm : (songTitle e.2, x) ∈ st.names.map Prod.fst
    · rw [nameStep_dup hc hx hm] at h ⊢
      refine ⟨?_, rfl⟩
      simpa using h.symm
    · rw [nameStep_new hc hx hm] at h; exact absurd h (by simp)

lemma step_name_inactive {b1 b2 : Bool} {st : DedupState} {e : Nat × Track}
    (h : (b2 && artTruthy e.2) = false) :
    step b1 b2 st e = isrcStep b1 st e := by
  unfold step
  rcases hh : isrcStep b1 st e with ⟨ax, st1⟩
  cases ax with
  | none => simpa using nameStep_off h
  | some a => rfl

lemma isrcTruthy_iff (t : Track) :
    isrcTruthy t = true ↔ ∃ s, t.ISRC = some s ∧ s ≠ "" := by
  constructor
  · exact isrcTruthy_some
  · rintro ⟨s, hs, hne⟩
    unfold isrcTruthy
    rw [hs]
    simpa using hne

lemma artTruthy_iff (t : Track) :
    artTruthy t = true ↔ ∃ a, t.ART_ID = some a ∧ a ≠ 0 := by
  constructor
  · exact artTruthy_some
  · rintro ⟨a, ha, hne⟩
    unfold artTruthy
    rw [ha]
    simpa using hne

lemma findDuplicatesI_sublist (p : Int) (songs : List Track) :
    (findDuplicatesI p songs).Sublist songs.enum := by
  obtain ⟨d, hd, hsub⟩ :=
    runScan_duplicates_sublist (policyIsrc p) (policyName p) songs.enum initState
  have he : findDuplicatesI p songs = d := by
    unfold findDuplicatesI
    rw [hd]
    simp [initState]
  rw [he]
  exact hsub

lemma filter_resultTruthy (l : List PlaylistResult) : l.filter resultTruthy = l := by
  induction l with
  | nil => rfl
  | cons x xs ih => simp [List.filter, resultTruthy, ih]

/-! ### Concrete fixtures used by counterexamples and witnesses -/

def tA1 : Track := ⟨11, "A", none, some "X", some 1⟩

def tA2 : Track := ⟨12, "A", none, some "Y", some 1⟩

def tA3 : Track := ⟨13, "B", none, some "Y", none⟩

def tB1 : Track := ⟨21, "A", none, some "X", some 1⟩

def tB2 : Track := ⟨22, "B", none, some "X", some 2⟩

def tB3 : Track := ⟨23, "B", none, some "Z", some 2⟩

def tC1 : Track := ⟨31, "C", none, some "W", none⟩

def tC2 : Track := ⟨32, "D", none, some "W", none⟩

def tD1 : Track := ⟨41, "A", none, some "X", some 1⟩

def tD2 : Track := ⟨42, "A", none, some "X", some 1⟩

def tE : Track := ⟨51, "E", none, some "Q", some 5⟩

def tZ : Track := ⟨61, "Z", none, none, some 0⟩

def plW : Playlist := ⟨"P", 7⟩

def apiNone : Api := ⟨fun _ => none, fun _ _ => false⟩

def apiClean : Api := ⟨fun _ => some [tE], fun _ _ => true⟩

def apiRF : Api := ⟨fun _ => some [tD1, tD2], fun _ _ => false⟩

def stW : DedupState := ⟨["X"], [(("A", 1), tA1)], []⟩

/-! ### Claim C8 -/

/-- **C8**: in every invocation, each track of the fetched list occurs at most
once in the duplicates sequence, for every policy (including `Both`, where the
ISRC-axis classification suppresses the name-axis check): the indexed
duplicates list is a sublist of the indexed fetched list, and its positions
are pairwise distinct. -/
theorem c8_duplicates_at_most_once (p : Int) (songs : List Track) :
    (findDuplicatesI p songs).Sublist songs.enum ∧
    ((findDuplicatesI p songs).map Prod.fst).Nodup := by
  have hsub := findDuplicatesI_sublist p songs
  refine ⟨hsub, ?_⟩
  have hpw : (songs.enum.map Prod.fst).Pairwise (· < ·) :=
    List.pairwise_map.mpr (enum_pairwise songs)
  have hsubm := hsub.map Prod.fst
  have hlt : ((findDuplicatesI p songs).map Prod.fst).Pairwise (· < ·) :=
    hpw.sublist hsubm
  exact hlt.imp (fun h => Nat.ne_of_lt h)

/-! ### Claim C4 -/

/-- **C4 (counterexample)**: under policy `Both`, the fetched list
`[tB1, tB2, tB3]` has `tB2` and `tB3` holding equal, defined name keys with
`tB2` earlier, yet only position 1 (`tB2`, an ISRC duplicate of `tB1`) is
classified duplicate and the later equal-name-key track `tB3` is kept — so
"every later track with an equal key on an active axis is classified
duplicate" fails as stated. -/
theorem c4_counterexample :
    (findDuplicatesI 3 [tB1, tB2, tB3]).map Prod.fst = [1] ∧
    nameKey true tB2 = nameKey true tB3 ∧
    (nameKey true tB3).isSome = true := by
  refine ⟨?_, rfl, rfl⟩
  rfl

/-- **C4 (amended)**: for every policy the duplicates sequence preserves
encounter order (it is a sublist of the indexed fetched list), and under each
single active axis (policy 1 = ByISRC, policy 2 = ByTitleAndArtist) a track is
classified duplicate exactly when some strictly earlier track holds an equal
defined key — equivalently, the first holder of a key is kept and every later
equal-key holder is a duplicate.  (Under policy `Both` the cross-axis
interaction invalidates this for the name axis, as the counterexample
shows.) -/
theorem c4_amended (songs : List Track) :
    (∀ p : Int, (findDuplicatesI p songs).Sublist songs.enum) ∧
    (∀ e ∈ songs.enum,
      (e ∈ findDuplicatesI 1 songs ↔
        ∃ k, isrcKey true e.2 = some k ∧
          ∃ e' ∈ songs.enum, e'.1 < e.1 ∧ isrcKey true e'.2 = some k)) ∧
    (∀ e ∈ songs.enum,
      (e ∈ findDuplicatesI 2 songs ↔
        ∃ k, nameKey true e.2 = some k ∧
          ∃ e' ∈ songs.enum, e'.1 < e.1 ∧ nameKey true e'.2 = some k)) := by
  refine ⟨fun p => findDuplicatesI_sublist p songs, ?_, ?_⟩
  · intro e he
    have h1 : policyIsrc 1 = true := by decide
    have h2 : policyName 1 = false := by decide
    have heq : findDuplicatesI 1 songs =
        keptDup (fun e => isrcKey true e.2) [] songs.enum := by
      unfold findDuplicatesI
      rw [h1, h2, runScan_isrc_keptDup]
      simp [initState]
    have hmem := keptDup_mem_iff (fun e => isrcKey true e.2) songs.enum []
      (enum_pairwise songs) e he
    rw [heq, hmem]
    simp
  · intro e he
    have h1 : policyIsrc 2 = false := by decide
    have h2 : policyName 2 = true := by decide
    have heq : findDuplicatesI 2 songs =
        keptDup (fun e => nameKey true e.2) [] songs.enum := by
      unfold findDuplicatesI
      rw [h1, h2, runScan_name_keptDup]
      simp [initState]
    have hmem := keptDup_mem_iff (fun e => nameKey true e.2) songs.enum []
      (enum_pairwise songs) e he
    rw [heq, hmem]
    simp

/-- Witness for `c4_amended` at a concrete input: in `[tC1, tC2]` (equal ISRC
`"W"`), the characterization yields that position 1 is classified duplicate
under policy 1. -/
theorem c4_amended_witness : (1, tC2) ∈ findDuplicatesI 1 [tC1, tC2] := by
  have h := (c4_amended [tC1, tC2]).2.1 (1, tC2) (by decide)
  exact h.mpr ⟨"W", rfl, (0, tC1), by decide, by decide, rfl⟩

/-! ### Claim C1 -/

/-- **C1 (counterexample)**: under policy `Both`, in `[tA1, tA2, tA3]` the
track `tA2` is classified duplicate on the name axis only (its name key equals
`tA1`'s, its ISRC `"Y"` differs from `tA1`'s `"X"`), yet the later track
`tA3` — whose ISRC equals only `tA2`'s and which has no name key — is
classified duplicate as well (positions 1 and 2 are both collected), refuting
"a later track whose ISRC equals only that duplicate's ISRC is kept". -/
theorem c1_counterexample :
    (findDuplicatesI 3 [tA1, tA2, tA3]).map Prod.fst = [1, 2] ∧
    tA2.ISRC ≠ tA1.ISRC ∧
    tA3.ISRC = tA2.ISRC ∧
    nameKey true tA2 = nameKey true tA1 ∧
    (nameKey true tA1).isSome = true ∧
    nameKey true tA3 = none := by
  refine ⟨?_, by decide, rfl, rfl, rfl, rfl⟩
  rfl

/-- **C1 (amended)**: a classified duplicate registers nothing at the point of
classification — it is never entered into the name mapping, and an ISRC-axis
duplicate leaves the seen-ISRC set unchanged; however, because the ISRC
section runs first and registers an unseen ISRC unconditionally, a track whose
classification is not by the ISRC axis (in particular a name-axis duplicate)
has its present, non-empty ISRC in the seen-ISRC set after its iteration, so
a later track with an equal ISRC is classified duplicate. -/
theorem c1_amended (b1 b2 : Bool) (st : DedupState) (e : Nat × Track) :
    ((step b1 b2 st e).1.isSome = true → (step b1 b2 st e).2.names = st.names) ∧
    ((step b1 b2 st e).1 = some Axis.isrc → (step b1 b2 st e).2.isrcs = st.isrcs) ∧
    (b1 = true → isrcTruthy e.2 = true → (step b1 b2 st e).1 ≠ some Axis.isrc →
      ∀ s, e.2.ISRC = some s → s ∈ (step b1 b2 st e).2.isrcs) := by
  unfold step
  rcases h : isrcStep b1 st e with ⟨ax, st1⟩
  cases ax with
  | some a =>
    have h2 : st1 = { st with duplicates := st.duplicates ++ [e] } ∧ a = Axis.isrc := by
      have h3 := isrcStep_some (show (isrcStep b1 st e).1 = some a by rw [h])
      rw [h] at h3
      exact ⟨by simpa using h3.2, h3.1⟩
    obtain ⟨hst1, rfl⟩ := h2
    subst hst1
    refine ⟨fun _ => rfl, fun _ => rfl, ?_⟩
    intro _ _ hax
    exact absurd rfl hax
  | none =>
    have hnames : st1.names = st.names := by
      have h3 := isrcStep_names b1 st e
      rw [h] at h3
      exact h3
    refine ⟨?_, ?_, ?_⟩
    · intro hsome
      rcases hax : (nameStep b2 st1 e).1 with _ | a
      · rw [hax] at hsome; exact absurd hsome (by simp)
      · have h4 := (nameStep_some hax).2
        rw [h4]
        exact hnames
    · intro hisrc
      have h4 := (nameStep_some hisrc).1
      exact absurd h4.symm (by simp)
    · intro hb1 ht _ s hs
      have hmem : s ∈ st1.isrcs := by
        by_cases hm : s ∈ st.isrcs
        · have := @isrcStep_dup b1 st e s (by rw [hb1, ht]; rfl) hs hm
          rw [h] at this
          exact absurd (congrArg Prod.fst this) (by simp)
        · have := @isrcStep_new b1 st e s (by rw [hb1, ht]; rfl) hs hm
          rw [h] at this
          have h5 : st1 = { st with isrcs := s :: st.isrcs } := by
            simpa using congrArg Prod.snd this
          rw [h5]
          exact List.mem_cons_self s st.isrcs
      have h6 := nameStep_isrcs b2 st1 e
      rw [h6]
      exact hmem

/-- Witness for `c1_amended`: from the state after `tA1` (ISRC `"X"` seen,
name key `("A", 1)` mapped), the step on `tA2` classifies it on the name axis,
leaves the name mapping unchanged, and its fresh ISRC `"Y"` ends up in the
seen-ISRC set. -/
theorem c1_amended_witness :
    (step true true stW (1, tA2)).1 = some Axis.name ∧
    "Y" ∈ (step true true stW (1, tA2)).2.isrcs ∧
    (step true true stW (1, tA2)).2.names = stW.names := by
  have h := c1_amended true true stW (1, tA2)
  exact ⟨rfl, h.2.2 rfl rfl (by decide) "Y" rfl, h.1 rfl⟩

/-! ### Claim C9 -/

/-- **C9**: a track whose `ART_ID` is present but falsy (the integer 0) has
the name axis disabled exactly as if the field were absent: it produces no
name key, is never classified duplicate on the name axis, is never registered
in the name mapping, and the step classifies it and updates the seen-ISRC set
exactly as it does for the same track with `ART_ID` removed; moreover an
absent `VERSION` contributes the empty string to the song title. -/
theorem c9_falsy_artist (b1 b2 : Bool) (st : DedupState) (i : Nat) (t : Track)
    (ha : t.ART_ID = some 0) :
    nameKey b2 t = none ∧
    (step b1 b2 st (i, t)).2.names = st.names ∧
    (step b1 b2 st (i, t)).1 ≠ some Axis.name ∧
    (step b1 b2 st (i, { t with ART_ID := none })).1 = (step b1 b2 st (i, t)).1 ∧
    (step b1 b2 st (i, { t with ART_ID := none })).2.isrcs =
      (step b1 b2 st (i, t)).2.isrcs ∧
    (∀ u : Track, u.VER = none → songTitle u = u.SNG_TITLE ++ "") := by
  have hat : artTruthy t = false := by
    unfold artTruthy
    rw [ha]
    rfl
  have hat' : artTruthy { t with ART_ID := none } = false := rfl
  have hs1 : step b1 b2 st (i, t) = isrcStep b1 st (i, t) :=
    step_name_inactive (by simp [hat])
  have hs2 : step b1 b2 st (i, { t with ART_ID := none }) =
      isrcStep b1 st (i, { t with ART_ID := none }) :=
    step_name_inactive (by simp [hat'])
  refine ⟨by simp [nameKey, hat], ?_, ?_, ?_, ?_, fun u hu => by simp [songTitle, hu]⟩
  · rw [hs1]
    exact isrcStep_names b1 st (i, t)
  · rw [hs1]
    intro hcon
    have := (isrcStep_some hcon).1
    exact absurd this (by simp)
  · rw [hs1, hs2]
    cases hc : b1 && isrcTruthy t with
    | false =>
      rw [isrcStep_off hc, isrcStep_off (show _ = false from hc)]
    | true =>
      obtain ⟨s, hsi, -⟩ := isrcTruthy_some (Bool.and_eq_true _ _ |>.mp hc).2
      have hsi' : ({ t with ART_ID := none } : Track).ISRC = some s := hsi
      by_cases hm : s ∈ st.isrcs
      · rw [isrcStep_dup hc hsi hm, isrcStep_dup (show _ = true from hc) hsi' hm]
      · rw [isrcStep_new hc hsi hm, isrcStep_new (show _ = true from hc) hsi' hm]
  · rw [hs1, hs2]
    cases hc : b1 && isrcTruthy t with
    | false =>
      rw [isrcStep_off hc, isrcStep_off (show _ = false from hc)]
    | true =>
      obtain ⟨s, hsi, -⟩ := isrcTruthy_some (Bool.and_eq_true _ _ |>.mp hc).2
      have hsi' : ({ t with ART_ID := none } : Track).ISRC = some s := hsi
      by_cases hm : s ∈ st.isrcs
      · rw [isrcStep_dup hc hsi hm, isrcStep_dup (show _ = true from hc) hsi' hm]
      · rw [isrcStep_new hc hsi hm, isrcStep_new (show _ = true from hc) hsi' hm]

/-- Witness for `c9_falsy_artist` at the concrete track `tZ`
(`ART_ID = some 0`). -/
theorem c9_falsy_artist_witness :
    nameKey true tZ = none ∧
    (step true true initState (0, tZ)).2.names = initState.names ∧
    (step true true initState (0, tZ)).1 ≠ some Axis.name := by
  have h := c9_falsy_artist true true initState 0 tZ rfl
  exact ⟨h.1, h.2.1, h.2.2.1⟩

/-! ### Claim C2 -/

/-- **C2 (counterexample)**: with one identified duplicate (`tD2`) and a
failing removal call, `deduplicate_playlist` returns `(None, title, id)` — the
identified duplicate sequence is NOT carried in the result, refuting the
claim that the failed outcome still carries it. -/
theorem c2_counterexample :
    dupTracks 1 [tD1, tD2] = [tD2] ∧
    deduplicate_playlist plW 1 apiRF false =
      ((none, "P", 7), [ApiCall.fetch 7, ApiCall.remove 7 [42]]) := by
  exact ⟨rfl, rfl⟩

/-- **C2 (amended)**: when dryRun is false, duplicates were identified and the
batch removal call fails, `deduplicate_playlist` returns the failed outcome
`(None, title, id)` — the same value as the no-duplicates outcome — and the
identified duplicate sequence is not carried in the result (it is only
observable in the ids of the attempted removal call). -/
theorem c2_amended (pl : Playlist) (p : Int) (api : Api) (songs : List Track)
    (hf : api.get_songs_in_playlist pl.id = some songs)
    (hne : songs.isEmpty = false)
    (hd : (dupTracks p songs).isEmpty = false)
    (hr : api.remove_songs_from_playlist pl.id
      ((dupTracks p songs).map Track.SNG_ID) = false) :
    deduplicate_playlist pl p api false =
      ((none, pl.name, pl.id),
        [ApiCall.fetch pl.id,
          ApiCall.remove pl.id ((dupTracks p songs).map Track.SNG_ID)]) := by
  simp [deduplicate_playlist, hf, fetchFalsy, hne, hd, hr]

/-- Witness for `c2_amended` at the concrete failing-removal collaborator. -/
theorem c2_amended_witness :
    deduplicate_playlist plW 1 apiRF false =
      ((none, "P", 7), [ApiCall.fetch 7, ApiCall.remove 7 [42]]) := by
  have h := c2_amended plW 1 apiRF [tD1, tD2] rfl rfl (by decide) rfl
  exact h.trans rfl

/-! ### Claim C3 -/

/-- **C3 (counterexample)**: a failed fetch and a successfully fetched
playlist with zero duplicates produce the *same* `PlaylistResult`
`(None, title, id)` — the result does not distinguish fetch failure from a
clean playlist, refuting the four-way distinguishability claim. -/
theorem c3_counterexample :
    (deduplicate_playlist plW 1 apiNone true).1 =
      (deduplicate_playlist plW 1 apiClean true).1 ∧
    apiNone.get_songs_in_playlist 7 = none ∧
    apiClean.get_songs_in_playlist 7 = some [tE] ∧
    dupTracks 1 [tE] = [] := by
  exact ⟨rfl, rfl, rfl, rfl⟩

/-- **C3 (amended)**: the `PlaylistResult` distinguishes only two kinds of
outcome: `(some duplicates, title, id)` when duplicates were identified and
dry-run was on or removal succeeded, and `(None, title, id)` alike for a
failed/empty fetch, a fetched playlist with zero duplicates, and a failed
removal — fetch failure is not distinguishable from zero duplicates, nor
identified-only from removed. -/
theorem c3_amended (pl : Playlist) (p : Int) (api : Api) (os : Bool) :
    (fetchFalsy (api.get_songs_in_playlist pl.id) = true →
      (deduplicate_playlist pl p api os).1 = (none, pl.name, pl.id)) ∧
    (∀ songs, api.get_songs_in_playlist pl.id = some songs →
      songs.isEmpty = false → (dupTracks p songs).isEmpty = true →
      (deduplicate_playlist pl p api os).1 = (none, pl.name, pl.id)) ∧
    (∀ songs, api.get_songs_in_playlist pl.id = some songs →
      songs.isEmpty = false → (dupTracks p songs).isEmpty = false → os = false →
      api.remove_songs_from_playlist pl.id
        ((dupTracks p songs).map Track.SNG_ID) = false →
      (deduplicate_playlist pl p api os).1 = (none, pl.name, pl.id)) ∧
    (∀ songs, api.get_songs_in_playlist pl.id = some songs →
      songs.isEmpty = false → (dupTracks p songs).isEmpty = false → os = true →
      (deduplicate_playlist pl p api os).1 =
        (some (dupTracks p songs), pl.name, pl.id)) ∧
    (∀ songs, api.get_songs_in_playlist pl.id = some songs →
      songs.isEmpty = false → (dupTracks p songs).isEmpty = false → os = false →
      api.remove_songs_from_playlist pl.id
        ((dupTracks p songs).map Track.SNG_ID) = true →
      (deduplicate_playlist pl p api os).1 =
        (some (dupTracks p songs), pl.name, pl.id)) := by
  refine ⟨?_, ?_, ?_, ?_, ?_⟩
  · intro h1
    simp [deduplicate_playlist, h1]
  · intro songs hf hne hd
    simp [deduplicate_playlist, hf, fetchFalsy, hne, hd]
  · intro songs hf hne hd hos hr
    subst hos
    simp [deduplicate_playlist, hf, fetchFalsy, hne, hd, hr]
  · intro songs hf hne hd hos
    subst hos
    simp [deduplicate_playlist, hf, fetchFalsy, hne, hd]
  · intro songs hf hne hd hos hr
    subst hos
    simp [deduplicate_playlist, hf, fetchFalsy, hne, hd, hr]

/-- Witness for `c3_amended`: the fetch-failure case at the concrete
collaborator whose fetch returns `None`. -/
theorem c3_amended_witness :
    (deduplicate_playlist plW 1 apiNone true).1 = (none, "P", 7) := by
  have h := (c3_amended plW 1 apiNone true).1 rfl
  exact h.trans rfl

/-! ### Claim C5 -/

/-- **C5**: `deduplicate_playlists` returns `None` for zero playlists, and
for every non-empty playlist list it returns exactly one `PlaylistResult` per
playlist, in task order — the result list is the map of `deduplicate_playlist`
over the inputs, so its length equals the number of playlists (failed fetches
and failed removals included, since every invocation yields a result). -/
theorem c5_cardinality (p : Int) (api : Api) (os : Bool) :
    deduplicate_playlists [] p api os = none ∧
    ∀ ps : List Playlist, ps ≠ [] →
      deduplicate_playlists ps p api os =
        some (ps.map fun pl => (deduplicate_playlist pl p api os).1) ∧
      (ps.map fun pl => (deduplicate_playlist pl p api os).1).length = ps.length := by
  refine ⟨rfl, ?_⟩
  intro ps hps
  refine ⟨?_, by simp⟩
  rcases ps with _ | ⟨a, t⟩
  · exact absurd rfl hps
  rcases t with _ | ⟨b, t⟩
  · rfl
  · show some ((((a :: b :: t).map
        fun pl => (deduplicate_playlist pl p api os).1)).filter resultTruthy) = _
    rw [filter_resultTruthy]

/-- Witness for `c5_cardinality` on a singleton job list with a failing
fetch: exactly one result is returned. -/
theorem c5_cardinality_witness :
    deduplicate_playlists [plW] 1 apiNone true =
      some [((none : Option (List Track)), "P", 7)] := by
  have h := ((c5_cardinality 1 apiNone true).2 [plW] (by simp)).1
  exact h.trans rfl

/-! ### Claim C6 -/

/-- **C6 (counterexample)**: the track `tZ` has `ART_ID` present (`some 0`)
and the name axis active, yet no name key is produced — key production
requires the field to be *truthy*, not merely present. -/
theorem c6_counterexample :
    tZ.ART_ID.isSome = true ∧ nameKey true tZ = none := by
  exact ⟨rfl, rfl⟩

/-- **C6 (amended)**: the ISRC key is the raw ISRC value and is produced
exactly when the ISRC axis is active and `isrc` is present and non-empty; the
name key is the pair of (`title` concatenated with `versionSuffix` verbatim,
`artistId`) and is produced exactly when the name axis is active and
`artistId` is present *and truthy* (non-zero); absent optional fields
suppress the corresponding key without error. -/
theorem c6_amended (b : Bool) (t : Track) :
    ((isrcKey b t).isSome = true ↔ b = true ∧ ∃ s, t.ISRC = some s ∧ s ≠ "") ∧
    (∀ s, isrcKey b t = some s → t.ISRC = some s) ∧
    ((nameKey b t).isSome = true ↔ b = true ∧ ∃ a, t.ART_ID = some a ∧ a ≠ 0) ∧
    (∀ k, nameKey b t = some k →
      t.ART_ID = some k.2 ∧ k.1 = t.SNG_TITLE ++ t.VER.getD "") := by
  have hI : ∀ s, isrcKey b t = some s → t.ISRC = some s := by
    intro s h
    unfold isrcKey at h
    by_cases hc : (b && isrcTruthy t) = true
    · rw [if_pos hc] at h
      exact h
    · rw [if_neg hc] at h
      exact absurd h (by simp)
  have hN : ∀ k, nameKey b t = some k →
      t.ART_ID = some k.2 ∧ k.1 = t.SNG_TITLE ++ t.VER.getD "" := by
    intro k h
    unfold nameKey at h
    by_cases hc : (b && artTruthy t) = true
    · rw [if_pos hc] at h
      obtain ⟨a, ha, -⟩ := artTruthy_some (Bool.and_eq_true _ _ |>.mp hc).2
      rw [ha] at h
      have hk := Option.some.inj h
      refine ⟨?_, ?_⟩
      · rw [ha, ← hk]
      · rw [← hk]
        rfl
    · rw [if_neg hc] at h
      exact absurd h (by simp)
  refine ⟨?_, hI, ?_, hN⟩
  · constructor
    · intro h
      by_cases hc : (b && isrcTruthy t) = true
      · obtain ⟨hb, ht⟩ := Bool.and_eq_true _ _ |>.mp hc
        exact ⟨hb, isrcTruthy_some ht⟩
      · unfold isrcKey at h
        rw [if_neg hc] at h
        exact absurd h (by simp)
    · rintro ⟨hb, s, hs, hne⟩
      have ht : isrcTruthy t = true := (isrcTruthy_iff t).mpr ⟨s, hs, hne⟩
      unfold isrcKey
      rw [hb, ht]
      simp [hs]
  · constructor
    · intro h
      by_cases hc : (b && artTruthy t) = true
      · obtain ⟨hb, ht⟩ := Bool.and_eq_true _ _ |>.mp hc
        exact ⟨hb, artTruthy_some ht⟩
      · unfold nameKey at h
        rw [if_neg hc] at h
        exact absurd h (by simp)
    · rintro ⟨hb, a, ha, hne⟩
      have ht : artTruthy t = true := (artTruthy_iff t).mpr ⟨a, ha, hne⟩
      unfold nameKey
      rw [hb, ht]
      simp [ha]

/-- Witness for `c6_amended` at `tD1`: its keys recover the raw field
values. -/
theorem c6_amended_witness : tD1.ISRC = some "X" ∧ tD1.ART_ID = some 1 := by
  have h := c6_amended true tD1
  exact ⟨h.2.1 "X" rfl, (h.2.2.2 ("A", 1) rfl).1⟩

/-! ### Claim C7 -/

/-- **C7**: with dryRun on, `deduplicate_playlist` issues exactly the one
fetch call (never a removal) and its result carries exactly the identified
duplicate sequence computed from the fetched list (`None` when that sequence
is empty); and in every invocation the call trace is exactly one fetch
followed by at most one batch removal. -/
theorem c7_dry_run_frame (pl : Playlist) (p : Int) (api : Api) :
    ((deduplicate_playlist pl p api true).2 = [ApiCall.fetch pl.id]) ∧
    (∀ songs, api.get_songs_in_playlist pl.id = some songs →
      songs.isEmpty = false →
      (deduplicate_playlist pl p api true).1 =
        ((if (dupTracks p songs).isEmpty then none else some (dupTracks p songs)),
          pl.name, pl.id)) ∧
    (∀ os : Bool, (deduplicate_playlist pl p api os).2 = [ApiCall.fetch pl.id] ∨
      ∃ ids, (deduplicate_playlist pl p api os).2 =
        [ApiCall.fetch pl.id, ApiCall.remove pl.id ids]) := by
  refine ⟨?_, ?_, ?_⟩
  · by_cases h1 : fetchFalsy (api.get_songs_in_playlist pl.id) = true
    · simp [deduplicate_playlist, h1]
    · by_cases h2 :
        (dupTracks p ((api.get_songs_in_playlist pl.id).getD [])).isEmpty = true
      · simp [deduplicate_playlist, h1, h2]
      · simp [deduplicate_playlist, h1, h2]
  · intro songs hf hne
    by_cases h2 : (dupTracks p songs).isEmpty = true
    · simp [deduplicate_playlist, hf, fetchFalsy, hne, h2]
    · simp [deduplicate_playlist, hf, fetchFalsy, hne, h2]
  · intro os
    by_cases h1 : fetchFalsy (api.get_songs_in_playlist pl.id) = true
    · left
      simp [deduplicate_playlist, h1]
    · by_cases h2 :
        (dupTracks p ((api.get_songs_in_playlist pl.id).getD [])).isEmpty = true
      · left
        simp [deduplicate_playlist, h1, h2]
      · cases os with
        | true =>
          left
          simp [deduplicate_playlist, h1, h2]
        | false =>
          right
          refine ⟨(dupTracks p ((api.get_songs_in_playlist pl.id).getD [])).map
            Track.SNG_ID, ?_⟩
          by_cases h3 : api.remove_songs_from_playlist pl.id
              ((dupTracks p ((api.get_songs_in_playlist pl.id).getD [])).map
                Track.SNG_ID) = true
          · simp [deduplicate_playlist, h1, h2, h3]
          · simp [deduplicate_playlist, h1, h2, h3]

/-- Witness for `c7_dry_run_frame` at the clean collaborator: one fetch call,
no removal, and the no-duplicates value in the result. -/
theorem c7_dry_run_frame_witness :
    (deduplicate_playlist plW 1 apiClean true).1 = (none, "P", 7) ∧
    (deduplicate_playlist plW 1 apiClean true).2 = [ApiCall.fetch 7] := by
  have h := c7_dry_run_frame plW 1 apiClean
  refine ⟨?_, ?_⟩
  · have h2 := h.2.1 [tE] rfl rfl
    exact h2.trans (by decide)
  · exact h.1.trans rfl

/-! ### Claim C10 -/

/-- **C10**: for every policy value outside `{1, 2, 3}` both axes are
inactive, so on a successfully fetched non-empty track list no track is
classified duplicate, no removal call is issued regardless of dryRun, and the
returned value is exactly the no-duplicates outcome. -/
theorem c10_unknown_policy (p : Int) (hp1 : p ≠ 1) (hp2 : p ≠ 2) (hp3 : p ≠ 3)
    (pl : Playlist) (api : Api) (os : Bool) (songs : List Track)
    (hf : api.get_songs_in_playlist pl.id = some songs)
    (hne : songs.isEmpty = false) :
    dupTracks p songs = [] ∧
    deduplicate_playlist pl p api os =
      ((none, pl.name, pl.id), [ApiCall.fetch pl.id]) := by
  have h1 : policyIsrc p = false := by
    simp [policyIsrc, hp1, hp3]
  have h2 : policyName p = false := by
    simp [policyName, hp2, hp3]
  have hd : dupTracks p songs = [] := by
    unfold dupTracks findDuplicatesI
    rw [h1, h2, runScan_inactive]
    rfl
  refine ⟨hd, ?_⟩
  simp [deduplicate_playlist, hf, fetchFalsy, hne, hd]

/-- Witness for `c10_unknown_policy` at policy 0 with a non-empty fetch and a
collaborator whose removal would fail if it were ever called. -/
theorem c10_unknown_policy_witness :
    deduplicate_playlist plW 0 apiRF false = ((none, "P", 7), [ApiCall.fetch 7]) := by
  have h := (c10_unknown_policy 0 (by decide) (by decide) (by decide)
    plW apiRF false [tD1, tD2] rfl rfl).2
  exact h.trans rfl

end DeezerDedup
